import Mathlib

/-!
# Verification of the Conway repository's simulation core

Shallow embedding of the Game of Life simulation core of `src/Conway/main.cpp`
(the repository holds two variants of the program in that file; the claims are
settled against the second, refactored variant, whose constants and bounds
checks the specification describes; deviations of the first variant are noted
in the results).

Machine reals (`double`/`float`) are embedded as `ℚ`; the C cast `(int)` is
embedded as truncation toward zero on `ℚ`.
-/

namespace Conway

/-- Source constant `const int numberOfSeparators = 80;` — the grid side length N. -/
abbrev numberOfSeparators : Nat := 80

/-- Source state `static bool mapGrid[numberOfSeparators][numberOfSeparators]` — an N×N
boolean matrix, embedded as a total function on in-range indices. -/
abbrev Grid := Fin numberOfSeparators → Fin numberOfSeparators → Bool

/-- Total embedding of a raw 2D array read `mapGrid[i][j]` at `Int` indices:
`some` of the stored value when both indices are in `[0, N)`, `none` (the
out-of-bounds branch) otherwise. -/
def readCell? (g : Grid) (i j : Int) : Option Bool :=
  if h : 0 ≤ i ∧ i < (numberOfSeparators : Int) ∧
         0 ≤ j ∧ j < (numberOfSeparators : Int) then
    some (g ⟨i.toNat, by omega⟩ ⟨j.toNat, by omega⟩)
  else none

/-- Bounds-guarded read: the stored value in range, `false` (dead) out of
range.  This is the guard-then-read idiom the neighbour scan uses. -/
def gridAt (g : Grid) (i j : Int) : Bool := (readCell? g i j).getD false

/-- Modelled from the spec: `isAlive(row, col) -> bool` of §4.1 (GridState).
The source has no named lookup function; reads of `mapGrid` are always
bounds-guarded, so the lookup is the guarded read, `false` out of `[0, N)`. -/
def isAlive (g : Grid) (row col : Int) : Bool := gridAt g row col

/-- The loop bounds `for (int x = -1; x <= 1; x++)` of the neighbour scan. -/
def offsets : List Int := [-1, 0, 1]

/-- The neighbour-counting scan of `main` (second variant, lines 807–821):
for each offset row `x`, skip the row if `i + x` is out of `[0, N)`; for each
offset column `y`, skip if `j + y` is out of `[0, N)` or `(x, y) = (0, 0)`;
otherwise count `mapGrid[i + x][j + y]`.  The raw array read is embedded
through `readCell?`; its `none` branch contributes `0` (claim C10 proves it
unreachable). -/
def aliveNeighbours (g : Grid) (i j : Int) : Nat :=
  (offsets.map (fun x =>
    if i + x < 0 ∨ (numberOfSeparators : Int) ≤ i + x then 0
    else
      (offsets.map (fun y =>
        if j + y < 0 ∨ (numberOfSeparators : Int) ≤ j + y then 0
        else if x = 0 ∧ y = 0 then 0
        else
          match readCell? g (i + x) (j + y) with
          | some b => if b then 1 else 0
          | none => 0)).sum)).sum

/-- The per-cell update of `main` (second variant, lines 823–828):
an alive cell with fewer than 2 or more than 3 alive neighbours dies, a dead
cell with exactly 3 alive neighbours is born, otherwise the state is kept. -/
def stepCell (g : Grid) (i j : Fin numberOfSeparators) : Bool :=
  let aliveNeighbours := aliveNeighbours g i.val j.val
  if g i j = true ∧ (aliveNeighbours < 2 ∨ aliveNeighbours > 3) then false
  else if g i j = false ∧ aliveNeighbours = 3 then true
  else g i j

/-- Follows the spec's words (§4.2 AutomatonRule): `step(grid) -> newGrid`, a
pure function computing every cell of the next generation from the prior
generation snapshot. -/
def step (g : Grid) : Grid := fun i j => stepCell g i j

/-- A single write `buf[i][j] = v` into a grid buffer. -/
def writeCell (b : Grid) (i j : Fin numberOfSeparators) (v : Bool) : Grid :=
  fun i' j' => if i' = i ∧ j' = j then v else b i' j'

/-- The row-major index sequence of the two nested
`for (int i ...) for (int j ...)` loops. -/
def allIndices : List (Fin numberOfSeparators × Fin numberOfSeparators) :=
  (List.finRange numberOfSeparators).flatMap
    (fun i => (List.finRange numberOfSeparators).map (fun j => (i, j)))

/-- The double-buffered generation transition of `main` (second variant,
lines 802–838): fill a fresh all-false `newMapGrid` cell by cell from the
unmodified `mapGrid`, then copy it back over `mapGrid`. -/
def stepImperative (g : Grid) : Grid :=
  let newMapGrid :=
    allIndices.foldl
      (fun buf p => writeCell buf p.1 p.2 (stepCell g p.1 p.2))
      (fun _ _ => false)
  allIndices.foldl
    (fun m p => writeCell m p.1 p.2 (newMapGrid p.1 p.2)) g

/-! ## Basic lemmas about reads -/

theorem readCell?_inBounds (g : Grid) (i j : Int)
    (h1 : 0 ≤ i) (h2 : i < (numberOfSeparators : Int))
    (h3 : 0 ≤ j) (h4 : j < (numberOfSeparators : Int)) :
    readCell? g i j = some (g ⟨i.toNat, by omega⟩ ⟨j.toNat, by omega⟩) := by
  unfold readCell?
  rw [dif_pos ⟨h1, h2, h3, h4⟩]

theorem readCell?_oob (g : Grid) (i j : Int)
    (h : i < 0 ∨ (numberOfSeparators : Int) ≤ i ∨
         j < 0 ∨ (numberOfSeparators : Int) ≤ j) :
    readCell? g i j = none := by
  unfold readCell?
  rw [dif_neg (by omega)]

theorem gridAt_oob (g : Grid) (i j : Int)
    (h : i < 0 ∨ (numberOfSeparators : Int) ≤ i ∨
         j < 0 ∨ (numberOfSeparators : Int) ≤ j) :
    gridAt g i j = false := by
  unfold gridAt
  rw [readCell?_oob g i j h]
  rfl

theorem gridAt_fin (g : Grid) (i j : Fin numberOfSeparators) :
    gridAt g i.val j.val = g i j := by
  unfold gridAt
  rw [readCell?_inBounds g i.val j.val (by omega) (by omega) (by omega) (by omega)]
  simp

/-- One neighbour's contribution to the count: 1 if the guarded read is alive,
0 otherwise. -/
def aliveInd (g : Grid) (i j : Int) : Nat := if gridAt g i j = true then 1 else 0

theorem aliveInd_oob (g : Grid) (i j : Int)
    (h : i < 0 ∨ (numberOfSeparators : Int) ≤ i ∨
         j < 0 ∨ (numberOfSeparators : Int) ≤ j) :
    aliveInd g i j = 0 := by
  unfold aliveInd
  rw [gridAt_oob g i j h]
  rfl

theorem readMatch (g : Grid) (i j : Int) :
    (match readCell? g i j with
      | some b => if b then 1 else 0
      | none => 0) = aliveInd g i j := by
  unfold aliveInd gridAt
  cases h : readCell? g i j <;> simp [h]

/-- A column guard around a neighbour read is redundant: the guarded read is
already 0 out of bounds. -/
theorem colGuard_elim (g : Grid) (a b : Int) :
    (if b < 0 ∨ (numberOfSeparators : Int) ≤ b then 0 else aliveInd g a b) =
      aliveInd g a b := by
  by_cases h : b < 0 ∨ (numberOfSeparators : Int) ≤ b
  · rw [if_pos h, aliveInd_oob g a b (by omega)]
  · rw [if_neg h]

theorem rowGuard_elim3 (g : Grid) (a b1 b2 b3 : Int) :
    (if a < 0 ∨ (numberOfSeparators : Int) ≤ a then 0
     else aliveInd g a b1 + (aliveInd g a b2 + aliveInd g a b3)) =
      aliveInd g a b1 + (aliveInd g a b2 + aliveInd g a b3) := by
  by_cases h : a < 0 ∨ (numberOfSeparators : Int) ≤ a
  · rw [if_pos h, aliveInd_oob g a b1 (by omega), aliveInd_oob g a b2 (by omega),
      aliveInd_oob g a b3 (by omega)]
  · rw [if_neg h]

theorem rowGuard_elim2 (g : Grid) (a b1 b2 : Int) :
    (if a < 0 ∨ (numberOfSeparators : Int) ≤ a then 0
     else aliveInd g a b1 + aliveInd g a b2) =
      aliveInd g a b1 + aliveInd g a b2 := by
  by_cases h : a < 0 ∨ (numberOfSeparators : Int) ≤ a
  · rw [if_pos h, aliveInd_oob g a b1 (by omega), aliveInd_oob g a b2 (by omega)]
  · rw [if_neg h]

/-- The nested guarded scan equals the plain sum of the eight guarded
neighbour reads. -/
theorem aliveNeighbours_eq_sum (g : Grid) (i j : Int) :
    aliveNeighbours g i j =
      aliveInd g (i - 1) (j - 1) + aliveInd g (i - 1) j + aliveInd g (i - 1) (j + 1) +
      aliveInd g i (j - 1) + aliveInd g i (j + 1) +
      aliveInd g (i + 1) (j - 1) + aliveInd g (i + 1) j + aliveInd g (i + 1) (j + 1) := by
  unfold aliveNeighbours offsets
  simp only [List.map_cons, List.map_nil, List.sum_cons, List.sum_nil, readMatch,
    add_zero, zero_add, Int.reduceEq, false_and, and_false, and_self, ite_true,
    ite_false, ite_self]
  simp only [colGuard_elim, rowGuard_elim3, rowGuard_elim2, ← sub_eq_add_neg]
  ring

/-! ## The double-buffered step equals the pure step -/

theorem foldl_writeCell (f : Fin numberOfSeparators × Fin numberOfSeparators → Bool)
    (l : List (Fin numberOfSeparators × Fin numberOfSeparators)) (init : Grid)
    (i j : Fin numberOfSeparators) :
    (l.foldl (fun b p => writeCell b p.1 p.2 (f p)) init) i j =
      if (i, j) ∈ l then f (i, j) else init i j := by
  induction l generalizing init with
  | nil => simp
  | cons p l ih =>
    simp only [List.foldl_cons, ih, List.mem_cons]
    by_cases h : (i, j) ∈ l
    · simp [h]
    · by_cases hp : (i, j) = p
      · cases hp
        simp [h, writeCell]
      · have hp' : ¬(i = p.1 ∧ j = p.2) := by
          intro hc
          exact hp (Prod.ext hc.1 hc.2)
        simp [h, hp, writeCell, hp']

theorem mem_allIndices (p : Fin numberOfSeparators × Fin numberOfSeparators) :
    p ∈ allIndices := by
  unfold allIndices
  rw [List.mem_flatMap]
  exact ⟨p.1, List.mem_finRange p.1, List.mem_map.mpr ⟨p.2, List.mem_finRange p.2, rfl⟩⟩

theorem stepImperative_apply (g : Grid) (i j : Fin numberOfSeparators) :
    stepImperative g i j = stepCell g i j := by
  show (allIndices.foldl
      (fun m p => writeCell m p.1 p.2
        ((allIndices.foldl
            (fun buf p => writeCell buf p.1 p.2 (stepCell g p.1 p.2))
            (fun _ _ => false)) p.1 p.2)) g) i j = stepCell g i j
  have h1 := foldl_writeCell
    (fun p => (allIndices.foldl
        (fun buf p => writeCell buf p.1 p.2 (stepCell g p.1 p.2))
        (fun _ _ => false)) p.1 p.2) allIndices g i j
  have h2 := foldl_writeCell (fun p => stepCell g p.1 p.2) allIndices
    (fun _ _ => false) i j
  rw [if_pos (mem_allIndices (i, j))] at h1 h2
  exact h1.trans h2

theorem stepImperative_eq_step (g : Grid) : stepImperative g = step g := by
  funext i j
  exact stepImperative_apply g i j

/-! ## Spec-side rule and neighbour count (for claim C1) -/

/-- Follows the spec's words (§4.2, rule): an alive cell with neighbour count
below 2 or above 3 dies, a dead cell with exactly 3 neighbours becomes alive,
otherwise the state is unchanged. -/
def lifeRule (alive : Bool) (count : Nat) : Bool :=
  if alive = true ∧ (count < 2 ∨ count > 3) then false
  else if alive = false ∧ count = 3 then true
  else alive

/-- The 8 neighbour offsets of the spec: (di, dj) in \x7b-1,0,1\x7d² minus (0,0). -/
def neighbourOffsets : List (Int × Int) :=
  [(-1, -1), (-1, 0), (-1, 1), (0, -1), (0, 1), (1, -1), (1, 0), (1, 1)]

/-- Follows the spec's words (C1): the number of alive cells among the 8
offsets whose target index lies inside `[0, N)` in both dimensions. -/
def neighborCountSpec (g : Grid) (i j : Int) : Nat :=
  (neighbourOffsets.filter (fun d =>
    decide (0 ≤ i + d.1 ∧ i + d.1 < (numberOfSeparators : Int) ∧
            0 ≤ j + d.2 ∧ j + d.2 < (numberOfSeparators : Int) ∧
            gridAt g (i + d.1) (j + d.2) = true))).length

theorem length_filter_eq_sum_ind {α : Type} (p : α → Bool) (l : List α) :
    (l.filter p).length = (l.map (fun a => if p a = true then 1 else 0)).sum := by
  induction l with
  | nil => rfl
  | cons a l ih =>
    by_cases h : p a = true
    · simp [List.filter_cons, h, ih]
      omega
    · simp [List.filter_cons, h, ih]

theorem indSpec_eq_aliveInd (g : Grid) (a b : Int) :
    (if (0 ≤ a ∧ a < (numberOfSeparators : Int) ∧
         0 ≤ b ∧ b < (numberOfSeparators : Int) ∧
         gridAt g a b = true) then 1 else 0) = aliveInd g a b := by
  by_cases h : 0 ≤ a ∧ a < (numberOfSeparators : Int) ∧
      0 ≤ b ∧ b < (numberOfSeparators : Int)
  · unfold aliveInd
    by_cases hg : gridAt g a b = true
    · rw [if_pos ⟨h.1, h.2.1, h.2.2.1, h.2.2.2, hg⟩, if_pos hg]
    · rw [if_neg (fun hc => hg hc.2.2.2.2), if_neg hg]
  · rw [if_neg (fun hc => h ⟨hc.1, hc.2.1, hc.2.2.1, hc.2.2.2.1⟩),
      aliveInd_oob g a b (by omega)]

/-- The source's guarded scan computes exactly the spec's neighbour count. -/
theorem neighborCountSpec_eq_aliveNeighbours (g : Grid) (i j : Int) :
    neighborCountSpec g i j = aliveNeighbours g i j := by
  unfold neighborCountSpec neighbourOffsets
  rw [length_filter_eq_sum_ind, aliveNeighbours_eq_sum]
  simp only [List.map_cons, List.map_nil, List.sum_cons, List.sum_nil,
    decide_eq_true_eq, indSpec_eq_aliveInd, add_zero, Int.add_zero,
    ← sub_eq_add_neg]
  ring

theorem neighborCountSpec_le_eight (g : Grid) (i j : Int) :
    neighborCountSpec g i j ≤ 8 := by
  unfold neighborCountSpec
  have h := List.length_filter_le (fun d : Int × Int =>
    decide (0 ≤ i + d.1 ∧ i + d.1 < (numberOfSeparators : Int) ∧
            0 ≤ j + d.2 ∧ j + d.2 < (numberOfSeparators : Int) ∧
            gridAt g (i + d.1) (j + d.2) = true)) neighbourOffsets
  simpa [neighbourOffsets] using h

theorem stepCell_eq_lifeRule (g : Grid) (i j : Fin numberOfSeparators) :
    stepCell g i j = lifeRule (g i j) (aliveNeighbours g i.val j.val) := by
  unfold stepCell lifeRule
  rfl

/-! ## Claims C1 and C3 -/

/-- C1: for every grid state and every cell (i, j) with 0 ≤ i, j < N, the
cell's state after one simulation step equals the classic Life rule applied to
its neighbour count (alive with count < 2 or > 3 dies, dead with count exactly
3 is born, otherwise unchanged), where the count is the number of alive cells
among the 8 offsets whose target lies inside [0, N) (non-wrapping boundary),
an integer in [0, 8]. -/
theorem claim_C1 (g : Grid) (i j : Fin numberOfSeparators) :
    stepImperative g i j = lifeRule (g i j) (neighborCountSpec g i.val j.val) ∧
    neighborCountSpec g i.val j.val ≤ 8 := by
  refine ⟨?_, neighborCountSpec_le_eight g i.val j.val⟩
  rw [stepImperative_apply, stepCell_eq_lifeRule,
    neighborCountSpec_eq_aliveNeighbours]

/-- C3: the double-buffered imperative step (fill a fresh next-generation
buffer from the unmodified current buffer, then copy it over) equals, for
every grid state, the pure reference step function applied to the prior
generation snapshot; no cell's update within one step influences another
cell's neighbour count in that step. -/
theorem claim_C3 (g : Grid) : stepImperative g = step g :=
  stepImperative_eq_step g

/-! ## Blinker patterns (claim C5) -/

/-- The grid whose only alive cells are the horizontal 3-cell line
(r, c-1), (r, c), (r, c+1). -/
def horizLine (r c : Nat) : Grid := fun i j =>
  decide (i.val = r ∧ (j.val + 1 = c ∨ j.val = c ∨ j.val = c + 1))

/-- The grid whose only alive cells are the vertical 3-cell line
(r-1, c), (r, c), (r+1, c). -/
def vertLine (r c : Nat) : Grid := fun i j =>
  decide (j.val = c ∧ (i.val + 1 = r ∨ i.val = r ∨ i.val = r + 1))

theorem bool_eq_of_iff {x y : Bool} (h : x = true ↔ y = true) : x = y := by
  cases x <;> cases y <;> simp_all

theorem gridAt_horizLine (r c : Nat) (hr : r < numberOfSeparators)
    (hc1 : 1 ≤ c) (hc2 : c + 1 < numberOfSeparators) (a b : Int) :
    gridAt (horizLine r c) a b =
      decide (a = (r : Int) ∧ (b + 1 = (c : Int) ∨ b = (c : Int) ∨ b = (c : Int) + 1)) := by
  unfold gridAt readCell? horizLine
  by_cases h : 0 ≤ a ∧ a < (numberOfSeparators : Int) ∧
      0 ≤ b ∧ b < (numberOfSeparators : Int)
  · rw [dif_pos h]
    apply bool_eq_of_iff
    simp only [Option.getD_some, decide_eq_true_eq]
    omega
  · rw [dif_neg h]
    apply bool_eq_of_iff
    simp only [Option.getD_none, decide_eq_true_eq]
    constructor
    · intro hc
      exact absurd hc (by simp)
    · intro hc
      omega

theorem gridAt_vertLine (r c : Nat) (hr1 : 1 ≤ r)
    (hr2 : r + 1 < numberOfSeparators) (hc : c < numberOfSeparators) (a b : Int) :
    gridAt (vertLine r c) a b =
      decide (b = (c : Int) ∧ (a + 1 = (r : Int) ∨ a = (r : Int) ∨ a = (r : Int) + 1)) := by
  unfold gridAt readCell? vertLine
  by_cases h : 0 ≤ a ∧ a < (numberOfSeparators : Int) ∧
      0 ≤ b ∧ b < (numberOfSeparators : Int)
  · rw [dif_pos h]
    apply bool_eq_of_iff
    simp only [Option.getD_some, decide_eq_true_eq]
    omega
  · rw [dif_neg h]
    apply bool_eq_of_iff
    simp only [Option.getD_none, decide_eq_true_eq]
    constructor
    · intro hc'
      exact absurd hc' (by simp)
    · intro hc'
      omega

set_option maxHeartbeats 3200000 in
theorem step_horizLine (r c : Nat) (hr2 : r + 1 < numberOfSeparators)
    (hc1 : 1 ≤ c) (hc2 : c + 1 < numberOfSeparators) :
    step (horizLine r c) = vertLine r c := by
  funext i j
  show stepCell (horizLine r c) i j = vertLine r c i j
  unfold stepCell
  rw [aliveNeighbours_eq_sum]
  simp only [aliveInd, gridAt_horizLine r c (by omega) hc1 hc2]
  simp only [horizLine, vertLine, decide_eq_true_eq, decide_eq_false_iff_not]
  split_ifs <;>
    first
      | exact (decide_eq_true (by omega)).symm
      | exact (decide_eq_false (by omega)).symm
      | exact decide_eq_decide.mpr (by omega)

set_option maxHeartbeats 3200000 in
theorem step_vertLine (r c : Nat) (hr1 : 1 ≤ r) (hr2 : r + 1 < numberOfSeparators)
    (hc2 : c + 1 < numberOfSeparators) :
    step (vertLine r c) = horizLine r c := by
  funext i j
  show stepCell (vertLine r c) i j = horizLine r c i j
  unfold stepCell
  rw [aliveNeighbours_eq_sum]
  simp only [aliveInd, gridAt_vertLine r c hr1 hr2 (by omega)]
  simp only [horizLine, vertLine, decide_eq_true_eq, decide_eq_false_iff_not]
  split_ifs <;>
    first
      | exact (decide_eq_true (by omega)).symm
      | exact (decide_eq_false (by omega)).symm
      | exact decide_eq_decide.mpr (by omega)

/-- C5 (amended): for every grid whose only alive cells form a horizontal
3-cell line whose row is neither the top nor the bottom row (1 ≤ r and
r + 1 < N), one step yields the vertical 3-cell line centred on the same
middle cell, and two steps return the grid to the original horizontal line. -/
theorem claim_C5 (g : Grid) (r c : Nat) (hr1 : 1 ≤ r)
    (hr2 : r + 1 < numberOfSeparators) (hc1 : 1 ≤ c)
    (hc2 : c + 1 < numberOfSeparators) (hg : g = horizLine r c) :
    stepImperative g = vertLine r c ∧
    stepImperative (stepImperative g) = g := by
  subst hg
  simp only [stepImperative_eq_step]
  rw [step_horizLine r c hr2 hc1 hc2, step_vertLine r c hr1 hr2 hc2]
  exact ⟨rfl, rfl⟩

theorem claim_C5_witness :
    (1 ≤ 2 ∧ 2 + 1 < numberOfSeparators) ∧
    stepImperative (horizLine 2 2) = vertLine 2 2 ∧
    stepImperative (stepImperative (horizLine 2 2)) = horizLine 2 2 :=
  ⟨⟨by decide, by decide⟩,
   claim_C5 (horizLine 2 2) 2 2 (by decide) (by decide) (by decide) (by decide) rfl⟩

/-- C5 as stated is false: the horizontal 3-cell line in the top row
(cells (0,0), (0,1), (0,2)) does not return to itself after two steps —
with the non-wrapping boundary it decays to a 2-cell domino and then dies. -/
theorem claim_C5_counterexample :
    stepImperative (stepImperative (horizLine 0 1)) ≠ horizLine 0 1 := by
  intro h
  rw [stepImperative_eq_step, stepImperative_eq_step,
    step_horizLine 0 1 (by decide) (by decide) (by decide)] at h
  have h2 := congrFun (congrFun h (0 : Fin numberOfSeparators))
    (1 : Fin numberOfSeparators)
  revert h2
  decide

/-! ## Input handling and coordinate mapping -/

/-- The C cast `(int)` applied to a machine real, embedded on ℚ: truncation
toward zero. -/
def ratTrunc (q : ℚ) : Int := if 0 ≤ q then ⌊q⌋ else ⌈q⌉

theorem ratTrunc_eq_floor (q : ℚ) (h : 0 ≤ q) : ratTrunc q = ⌊q⌋ :=
  if_pos h

/-- Source constant `constexpr int windowWidth = 1200;` (used in double arithmetic). -/
def windowWidth : ℚ := 1200

/-- Source constant `constexpr int windowHeight = 1200;` (used in double arithmetic). -/
def windowHeight : ℚ := 1200

/-- The GLFW constant `GLFW_MOUSE_BUTTON_LEFT`. -/
def GLFW_MOUSE_BUTTON_LEFT : Int := 0

/-- The GLFW constant `GLFW_PRESS`. -/
def GLFW_PRESS : Int := 1

/-- The global mutable state the input callbacks touch: `mapGrid` and
`simulationRunning`. -/
structure AppState where
  mapGrid : Grid
  simulationRunning : Bool

/-- The cell flip `mapGrid[y][x] = !mapGrid[y][x]` (second variant,
line 507). -/
def toggleCell (g : Grid) (row col : Fin numberOfSeparators) : Grid :=
  writeCell g row col (!(g row col))

/-- The source's `mouse_button_callback` (second variant, lines 493–510): ignore events
while the simulation runs; on a left-button press, map the cursor position to
a cell index with the truncating casts, return unchanged when the index is
out of `[0, N)` in either dimension, otherwise flip the cell. -/
def mouse_button_callback (s : AppState) (button action : Int)
    (xpos ypos : ℚ) : AppState :=
  if s.simulationRunning then s
  else if button = GLFW_MOUSE_BUTTON_LEFT ∧ action = GLFW_PRESS then
    let x : Int := ratTrunc (xpos / windowWidth * (numberOfSeparators : ℚ))
    let y : Int := ratTrunc ((windowHeight - ypos) / windowHeight * (numberOfSeparators : ℚ))
    if h : x < 0 ∨ (numberOfSeparators : Int) ≤ x ∨
           y < 0 ∨ (numberOfSeparators : Int) ≤ y then s
    else { s with
      mapGrid := toggleCell s.mapGrid ⟨y.toNat, by omega⟩ ⟨x.toNat, by omega⟩ }
  else s

/-- The device-to-cell mapping of `mouse_button_callback` (second variant,
lines 502–505) in isolation: the truncating casts plus the bounds guard,
returning the (row, col) pair it would toggle, or `none`. -/
def sourceDeviceToCell (xpos ypos : ℚ) : Option (Int × Int) :=
  let x : Int := ratTrunc (xpos / windowWidth * (numberOfSeparators : ℚ))
  let y : Int := ratTrunc ((windowHeight - ypos) / windowHeight * (numberOfSeparators : ℚ))
  if x < 0 ∨ (numberOfSeparators : Int) ≤ x ∨
     y < 0 ∨ (numberOfSeparators : Int) ≤ y then none
  else some (y, x)

/-- Follows the spec's words (C4): row = floor(((windowHeight - py) /
windowHeight) * N), col = floor((px / windowWidth) * N), and none exactly
when the computed (row, col) falls outside `[0, N)²`. -/
def specDeviceToCell (px py : ℚ) : Option (Int × Int) :=
  let col : Int := ⌊px / windowWidth * (numberOfSeparators : ℚ)⌋
  let row : Int := ⌊(windowHeight - py) / windowHeight * (numberOfSeparators : ℚ)⌋
  if col < 0 ∨ (numberOfSeparators : Int) ≤ col ∨
     row < 0 ∨ (numberOfSeparators : Int) ≤ row then none
  else some (row, col)

/-! ## Claims about input handling -/

/-- The all-dead grid (the startup state of `mapGrid`). -/
def deadGrid : Grid := fun _ _ => false

/-- A paused app state (the startup state: all-dead grid, not running). -/
def pausedState : AppState := ⟨deadGrid, false⟩

/-- A running app state. -/
def runningState : AppState := ⟨deadGrid, true⟩

/-- C2: for every index pair (row, col) with row or col outside [0, N),
a cell-toggle input at device coordinates mapping to that cell is a silent
no-op leaving the state unchanged (the embedding is total, so nothing is
thrown), and the aliveness lookup at such indices returns false. -/
theorem claim_C2 (row col : Int)
    (h : row < 0 ∨ (numberOfSeparators : Int) ≤ row ∨
         col < 0 ∨ (numberOfSeparators : Int) ≤ col) :
    (∀ g : Grid, isAlive g row col = false) ∧
    (∀ (s : AppState) (button action : Int) (xpos ypos : ℚ),
      ratTrunc (xpos / windowWidth * (numberOfSeparators : ℚ)) = col →
      ratTrunc ((windowHeight - ypos) / windowHeight * (numberOfSeparators : ℚ)) = row →
      mouse_button_callback s button action xpos ypos = s) := by
  refine ⟨fun g => gridAt_oob g row col (by omega), ?_⟩
  intro s button action xpos ypos hx hy
  by_cases hrun : s.simulationRunning = true
  · unfold mouse_button_callback
    rw [if_pos hrun]
  · by_cases hb : button = GLFW_MOUSE_BUTTON_LEFT ∧ action = GLFW_PRESS
    · unfold mouse_button_callback
      rw [if_neg hrun, if_pos hb]
      rw [dif_pos (by rw [hx, hy]; omega)]
    · unfold mouse_button_callback
      rw [if_neg hrun, if_neg hb]

theorem claim_C2_witness :
    ((80 : Int) < 0 ∨ (numberOfSeparators : Int) ≤ 80 ∨ (0 : Int) < 0 ∨
      (numberOfSeparators : Int) ≤ 0) ∧
    isAlive deadGrid 80 0 = false ∧
    mouse_button_callback pausedState 0 1 0 0 = pausedState := by
  have h := claim_C2 80 0 (by decide)
  refine ⟨by decide, h.1 deadGrid, h.2 pausedState 0 1 0 0 ?_ ?_⟩
  · norm_num [ratTrunc, windowWidth]
  · norm_num [ratTrunc, windowHeight, numberOfSeparators]

/-- C7: a cell-toggle input arriving while the simulation is running is a
no-op: the state (in particular the grid) is identical before and after. -/
theorem claim_C7 (s : AppState) (button action : Int) (xpos ypos : ℚ)
    (h : s.simulationRunning = true) :
    mouse_button_callback s button action xpos ypos = s := by
  unfold mouse_button_callback
  rw [if_pos h]

theorem claim_C7_witness :
    runningState.simulationRunning = true ∧
    mouse_button_callback runningState 0 1 600 600 = runningState :=
  ⟨rfl, claim_C7 runningState 0 1 600 600 rfl⟩

/-- C9: while paused, toggling an in-range cell flips exactly that cell's
aliveness, and toggling it twice restores the original grid (involution). -/
theorem claim_C9 (s : AppState) (row col : Fin numberOfSeparators)
    (h : s.simulationRunning = false) :
    isAlive (toggleCell s.mapGrid row col) row.val col.val =
      !(isAlive s.mapGrid row.val col.val) ∧
    toggleCell (toggleCell s.mapGrid row col) row col = s.mapGrid := by
  constructor
  · unfold isAlive
    rw [gridAt_fin, gridAt_fin]
    unfold toggleCell writeCell
    simp
  · funext i j
    unfold toggleCell writeCell
    by_cases hij : i = row ∧ j = col
    · simp [hij]
    · simp [hij]

theorem claim_C9_witness :
    pausedState.simulationRunning = false ∧
    (isAlive (toggleCell pausedState.mapGrid 0 0)
        (0 : Fin numberOfSeparators).val (0 : Fin numberOfSeparators).val =
      !(isAlive pausedState.mapGrid
        (0 : Fin numberOfSeparators).val (0 : Fin numberOfSeparators).val) ∧
     toggleCell (toggleCell pausedState.mapGrid 0 0) 0 0 = pausedState.mapGrid) :=
  ⟨rfl, claim_C9 pausedState 0 0 rfl⟩

/-- C10: every read the neighbour-counting scan performs — a read at offset
(x, y) from a cell (i, j) that passed both bounds guards — is in bounds: in
the total embedding where grid indexing returns an `Option`, the `none`
branch is unreachable for every input grid. -/
theorem claim_C10 (g : Grid) (i j : Fin numberOfSeparators) (x y : Int)
    (hx : x ∈ offsets) (hy : y ∈ offsets)
    (hrow : ¬((i.val : Int) + x < 0 ∨
      (numberOfSeparators : Int) ≤ (i.val : Int) + x))
    (hcol : ¬((j.val : Int) + y < 0 ∨
      (numberOfSeparators : Int) ≤ (j.val : Int) + y)) :
    (readCell? g ((i.val : Int) + x) ((j.val : Int) + y)).isSome = true := by
  rw [readCell?_inBounds g _ _ (by omega) (by omega) (by omega) (by omega)]
  rfl

theorem claim_C10_witness :
    (readCell? deadGrid (((0 : Fin numberOfSeparators).val : Int) + 1)
      (((0 : Fin numberOfSeparators).val : Int) + 1)).isSome = true :=
  claim_C10 deadGrid 0 0 1 1 (by decide) (by decide) (by decide) (by decide)

/-! ## Claim C4: device-to-cell mapping -/

/-- C4 as stated (floor-based mapping) is false at the device position
px = -15/2, py = 600: the floor formula gives col = -1, outside [0, N), so
the claim demands no cell, but the code's int cast truncates -1/2 toward
zero to col = 0 and the mapping toggles cell (40, 0). -/
theorem claim_C4_counterexample :
    sourceDeviceToCell (-15 / 2 : ℚ) 600 = some (40, 0) ∧
    specDeviceToCell (-15 / 2 : ℚ) 600 = none := by
  have hx : (-15 / 2 : ℚ) / windowWidth * (numberOfSeparators : ℚ) = -1 / 2 := by
    norm_num [windowWidth, numberOfSeparators]
  have hy : ((windowHeight - 600) : ℚ) / windowHeight * (numberOfSeparators : ℚ) = 40 := by
    norm_num [windowHeight, numberOfSeparators]
  have ht1 : ratTrunc (-1 / 2 : ℚ) = 0 := by
    rw [ratTrunc, if_neg (by norm_num)]
    rw [Int.ceil_eq_iff] <;> norm_num
  have ht2 : ratTrunc (40 : ℚ) = 40 := by
    rw [ratTrunc, if_pos (by norm_num)]
    rw [Int.floor_eq_iff] <;> norm_num
  have hf1 : ⌊(-1 / 2 : ℚ)⌋ = -1 := by
    rw [Int.floor_eq_iff] <;> norm_num
  constructor
  · simp only [sourceDeviceToCell, hx, hy, ht1, ht2]
    norm_num
  · simp only [specDeviceToCell, hx, hy, hf1]
    norm_num

/-- C4 (amended): the mapping computes row and col with the C int cast —
truncation toward zero — applied to the spec's expressions; for every device
position with 0 ≤ px and py ≤ windowHeight (in particular every position
inside the window) it coincides with the floor-based mapping of the spec,
yielding no cell exactly when the computed (row, col) falls outside
[0, N)². -/
theorem claim_C4 (px py : ℚ) (hx : 0 ≤ px) (hy : py ≤ windowHeight) :
    sourceDeviceToCell px py = specDeviceToCell px py := by
  have h1 : 0 ≤ px / windowWidth * (numberOfSeparators : ℚ) :=
    mul_nonneg (div_nonneg hx (by norm_num [windowWidth])) (by positivity)
  have h2 : 0 ≤ (windowHeight - py) / windowHeight * (numberOfSeparators : ℚ) :=
    mul_nonneg (div_nonneg (sub_nonneg.mpr hy) (by norm_num [windowHeight]))
      (by positivity)
  simp only [sourceDeviceToCell, specDeviceToCell,
    ratTrunc_eq_floor _ h1, ratTrunc_eq_floor _ h2]

theorem claim_C4_witness :
    ((0 : ℚ) ≤ 600 ∧ (600 : ℚ) ≤ windowHeight) ∧
    sourceDeviceToCell 600 600 = specDeviceToCell 600 600 :=
  ⟨⟨by norm_num, by norm_num [windowHeight]⟩,
   claim_C4 600 600 (by norm_num) (by norm_num [windowHeight])⟩

/-! ## Render offsets and the per-tick render-list rebuild (claims C6, C8) -/

/-- Source constant `constexpr float viewPortLeft = -1.0f;` -/
def viewPortLeft : ℚ := -1

/-- Source constant `constexpr float viewPortBottom = -1.0f;` -/
def viewPortBottom : ℚ := -1

/-- Source constant `constexpr float viewPortSize = 2.0f;` -/
def viewPortSize : ℚ := 2

/-- Source constant `constexpr float gridSquareSize = viewPortSize / numberOfSeparators;` -/
def gridSquareSize : ℚ := viewPortSize / (numberOfSeparators : ℚ)

/-- The alive-cell offset computation of the rebuild loop (second variant,
lines 849–851): `x = viewPortLeft + gridSquareSize * j;`
`y = viewPortBottom + gridSquareSize * i;` for row i, column j. -/
def cellToOffset (i j : Fin numberOfSeparators) : ℚ × ℚ :=
  (viewPortLeft + gridSquareSize * (j.val : ℚ),
   viewPortBottom + gridSquareSize * (i.val : ℚ))

/-- The call `square.clearTranslations()` — drops the previously built list. -/
def clearTranslations (_translations : List (ℚ × ℚ)) : List (ℚ × ℚ) := []

/-- The per-tick render-list rebuild (second variant, lines 842–854):
clear the translation list, then scan the grid in row-major order and push
the offset of every alive cell. -/
def rebuildTranslations (translations : List (ℚ × ℚ)) (g : Grid) : List (ℚ × ℚ) :=
  allIndices.foldl
    (fun acc p => if g p.1 p.2 = true then acc ++ [cellToOffset p.1 p.2] else acc)
    (clearTranslations translations)

/-- The row-major sequence of coordinates alive in `g`. -/
def aliveCoords (g : Grid) : List (Fin numberOfSeparators × Fin numberOfSeparators) :=
  allIndices.filter (fun p => g p.1 p.2)

/-- Row-major order on cell coordinates. -/
def rowMajorLt (p q : Fin numberOfSeparators × Fin numberOfSeparators) : Prop :=
  p.1 < q.1 ∨ (p.1 = q.1 ∧ p.2 < q.2)

theorem foldl_append_filter_map {α β : Type} (P : α → Bool) (f : α → β) :
    ∀ (l : List α) (acc : List β),
      l.foldl (fun acc a => if P a = true then acc ++ [f a] else acc) acc =
        acc ++ (l.filter P).map f := by
  intro l
  induction l with
  | nil => intro acc; simp
  | cons a l ih =>
    intro acc
    by_cases h : P a = true
    · simp [List.filter_cons, h, ih]
    · simp [List.filter_cons, h, ih]

theorem pairwise_allIndices : allIndices.Pairwise rowMajorLt := by
  unfold allIndices
  rw [List.pairwise_flatMap]
  constructor
  · intro a _
    exact List.Pairwise.map _ (fun x y hxy => Or.inr ⟨rfl, hxy⟩)
      (List.pairwise_lt_finRange numberOfSeparators)
  · refine (List.pairwise_lt_finRange numberOfSeparators).imp ?_
    intro a b hab x hx y hy
    rw [List.mem_map] at hx hy
    obtain ⟨jx, -, rfl⟩ := hx
    obtain ⟨jy, -, rfl⟩ := hy
    exact Or.inl hab

theorem rowMajorLt_ne {p q : Fin numberOfSeparators × Fin numberOfSeparators}
    (h : rowMajorLt p q) : p ≠ q := by
  intro heq
  subst heq
  rcases h with h | ⟨-, h⟩
  · exact lt_irrefl _ h
  · exact lt_irrefl _ h

/-- C6: for every grid state, the per-tick render-list rebuild produces
exactly the offsets of the coordinates alive in the current grid — each alive
coordinate exactly once (the coordinate sequence has no duplicates), in
row-major order — and is unaffected by the previously built list or any
discarded generation: it equals the map of the offset computation over the
row-major list of alive coordinates, for every prior translation list. -/
theorem claim_C6 (translations : List (ℚ × ℚ)) (g : Grid) :
    rebuildTranslations translations g =
      (aliveCoords g).map (fun p => cellToOffset p.1 p.2) ∧
    (∀ p, p ∈ aliveCoords g ↔ g p.1 p.2 = true) ∧
    (aliveCoords g).Nodup ∧
    (aliveCoords g).Pairwise rowMajorLt := by
  refine ⟨?_, ?_, ?_, ?_⟩
  · unfold rebuildTranslations clearTranslations
    rw [foldl_append_filter_map]
    rfl
  · intro p
    unfold aliveCoords
    rw [List.mem_filter]
    exact ⟨fun h => h.2, fun h => ⟨mem_allIndices p, h⟩⟩
  · exact (pairwise_allIndices.filter _).imp (fun h => rowMajorLt_ne h)
  · exact pairwise_allIndices.filter _

/-- C8: for every in-range cell (row, col), the cell-to-render-offset mapping
returns x = viewportLeft + cellSize * col and y = viewportBottom +
cellSize * row, with cellSize = viewportSize / N and the viewport bounds the
fixed constants -1 (left, bottom) and size 2 of the render space. -/
theorem claim_C8 (row col : Fin numberOfSeparators) :
    cellToOffset row col =
      (viewPortLeft + viewPortSize / (numberOfSeparators : ℚ) * (col.val : ℚ),
       viewPortBottom + viewPortSize / (numberOfSeparators : ℚ) * (row.val : ℚ)) ∧
    gridSquareSize = viewPortSize / (numberOfSeparators : ℚ) ∧
    viewPortLeft = -1 ∧ viewPortBottom = -1 ∧ viewPortSize = 2 :=
  ⟨rfl, rfl, rfl, rfl, rfl⟩

end Conway
